import Mathlib

/-!
Verification development for the BoR (Bill of Reasoning) SDK: a deterministic
provenance tracker.  Each reasoning step's inputs are fingerprinted; the
fingerprints concatenate into a master proof (HMASTER) that replay can
recompute and compare.

This file shallowly embeds the repository's Python modules:
  bor/core.py    (BoRStep, Proof, BoRRun)
  bor/verify.py  (verify_proof)
  bor/store.py   (ProofStore.load)
Python exceptions become an error sum type and `Except`; object mutation
becomes explicit state passing (a mutating method returns the updated
object).  States are integers, configs are string-to-integer mappings
(association lists), matching the repository's test scenario.
-/

/-- Error taxonomy.  `DeterminismError` / `HashMismatchError` come from the
repository's `bor.exceptions` module; `NotFoundError` is the persistence-layer
error named by the specification; `FileNotFoundError` is the host language's
builtin file error, which the source raises directly. -/
inductive BoRError where
  | DeterminismError (msg : String)
  | HashMismatchError (msg : String)
  | NotFoundError (msg : String)
  | FileNotFoundError (msg : String)
  deriving DecidableEq, Repr

/-- Modelled from the spec: `bor/hash_utils.py` (`content_hash`,
`canonical_bytes`) is absent from the sources.  The spec describes
`content_hash` as a deterministic, pure, collision-resistant digest whose
outputs make the Proof Builder's concatenation unambiguous ("via fixed-length
fingerprints or explicit length-prefixing").  We realise that idealisation as
an injective, self-delimiting encoding: a unary length tag, a separator, then
the payload characters.  Collision-freeness (the negligible-collision
idealisation) and unambiguous concatenation are exact properties of this
model. -/
def content_hash (s : String) : String :=
  ⟨List.replicate s.data.length 'L' ++ '#' :: s.data⟩

/-- Modelled from the spec: canonical serialisation of a config mapping —
mapping keys are totally ordered before encoding (insertion sort by key)
to eliminate insertion-order nondeterminism. -/
def insertByKey (p : String × Int) : List (String × Int) → List (String × Int)
  | [] => [p]
  | q :: rest => if p.1 < q.1 then p :: q :: rest else q :: insertByKey p rest

/-- Sort a config's entries by key (canonicalisation step). -/
def sortByKey (l : List (String × Int)) : List (String × Int) :=
  l.foldr insertByKey []

/-- Render one sorted config entry. -/
def renderEntry (p : String × Int) : String :=
  p.1 ++ "=" ++ toString p.2 ++ ";"

/-- Modelled from the spec: canonical, type-tagged encoding of the step
payload `(fn, input, config, version)` used by `BoRStep.compute_fingerprint`.
Field tags prevent cross-field ambiguity; config keys are sorted. -/
def canonicalPayload (fn : String) (input : Int) (C : List (String × Int)) (V : String) : String :=
  "fn:str:" ++ fn ++ "|input:int:" ++ toString input ++ "|config:map:"
    ++ String.join ((sortByKey C).map renderEntry) ++ "|version:str:" ++ V

/-- Python dict lookup with default: `C.get(key, default)`. -/
def cfgGet (C : List (String × Int)) (key : String) (default : Int) : Int :=
  match C.find? (fun p => p.1 == key) with
  | some p => p.2
  | none => default

/-- One deterministic reasoning step (`BoRStep` in bor/core.py).  The
`fingerprint` field starts out unset (`None` in the source) and is filled by
`compute_fingerprint`. -/
structure BoRStep where
  fn_name : String
  input_state : Int
  config : List (String × Int)
  code_version : String
  fingerprint : Option String := none
  deriving DecidableEq, Repr

/-- `BoRStep.compute_fingerprint`: build the payload dictionary
`(fn, input, config, version)`, hash it, store and return the result.
Mutation of `self.fingerprint` is modelled by returning the updated step. -/
def BoRStep.compute_fingerprint (s : BoRStep) : BoRStep :=
  { s with
      fingerprint :=
        some (content_hash (canonicalPayload s.fn_name s.input_state s.config s.code_version)) }

/-- `Proof` (bor/core.py): the ordered stage hashes and the master
fingerprint HMASTER. -/
structure Proof where
  stage_hashes : List String
  master : String
  deriving DecidableEq, Repr

/-- A Python step-function argument: either a non-callable object or a
callable taking `(state, config, version)`; a raised exception becomes
`Except.error` carrying the exception text. -/
inductive PyFn where
  | notCallable (descr : String)
  | callable (name : String) (f : Int → List (String × Int) → String → Except String Int)

/-- `BoRRun` (bor/core.py): controller for executing deterministic reasoning
chains. -/
structure BoRRun where
  initial_state : Int
  config : List (String × Int)
  code_version : String
  steps : List BoRStep
  _final_state : Option Int
  proof : Option Proof
  deriving DecidableEq, Repr

/-- `BoRRun.__init__(S0, C, V)`. -/
def BoRRun.init (S0 : Int) (C : List (String × Int)) (V : String) : BoRRun :=
  ⟨S0, C, V, [], none, none⟩

/-- The source line `prev_state = self.initial_state if not self.steps else
self._final_state`.  When steps exist, `_final_state` is always set in any
reachable run; the `getD` default only covers the unreachable `None` case. -/
def BoRRun.prev_state_of (run : BoRRun) : Int :=
  if run.steps.isEmpty then run.initial_state else run._final_state.getD run.initial_state

/-- `BoRRun.add_step(fn)`: reject non-callables, invoke the function on the
current state, wrap execution failures as `DeterminismError`, record the
fingerprinted step and advance the final state.  Returns the updated run
(Python returns `self` after mutation). -/
def BoRRun.add_step (run : BoRRun) (fn : PyFn) : Except BoRError BoRRun :=
  match fn with
  | .notCallable _ => .error (.DeterminismError "Step must be a callable.")
  | .callable name f =>
    let prev_state := run.prev_state_of
    match f prev_state run.config run.code_version with
    | .error e =>
      .error (.DeterminismError ("Function " ++ name ++ " failed deterministically: " ++ e))
    | .ok output_state =>
      let step := BoRStep.compute_fingerprint
        { fn_name := name, input_state := prev_state,
          config := run.config, code_version := run.code_version }
      .ok { run with steps := run.steps ++ [step], _final_state := some output_state }

/-- `BoRRun.finalize()`: error on an empty run, else hash the in-order
concatenation of the step fingerprints into HMASTER, cache the proof on the
run and return it. -/
def BoRRun.finalize (run : BoRRun) : Except BoRError (Proof × BoRRun) :=
  if run.steps.isEmpty then
    .error (.DeterminismError "No steps added to BoRRun.")
  else
    let concatenated := String.join (run.steps.map (fun s => s.fingerprint.getD ""))
    let master := content_hash concatenated
    let proof : Proof := ⟨run.steps.map (fun s => s.fingerprint.getD ""), master⟩
    .ok (proof, { run with proof := some proof })

/-- `BoRRun.verify()`: reject an unfinalized run, then recompute via
`finalize` — which in the source reassigns `self.proof` before the
comparison — and compare masters.  The comparison reads `self.proof.master`
after that reassignment, exactly as the source does. -/
def BoRRun.verify (run : BoRRun) : Except BoRError Bool :=
  match run.proof with
  | none => .error (.DeterminismError "Run must be finalized before verification.")
  | some _ =>
    match run.finalize with
    | .error e => .error e
    | .ok (recomputed, run2) =>
      match run2.proof with
      | none => .error (.DeterminismError "Run must be finalized before verification.")
      | some selfProof =>
        if recomputed.master ≠ selfProof.master then
          .error (.HashMismatchError "Master proof mismatch: reasoning diverged.")
        else
          .ok true

/-- The stored proof JSON record read by `verify_proof` (fields written by
`ProofStore.save` and the tests). -/
structure StoredProof where
  master : String
  stage_hashes : List String
  deriving DecidableEq, Repr

/-- Outcome of a successful `verify_proof` call: the returned boolean and
whether the stage-hash warning was printed. -/
structure VerifyOutcome where
  result : Bool
  warned : Bool
  deriving DecidableEq, Repr

/-- Replay part of `verify_proof` (bor/verify.py): fresh `BoRRun(S0, C, V)`,
`add_step` over the stages in order, then `finalize`. -/
def replay (S0 : Int) (C : List (String × Int)) (V : String) (stages : List PyFn) :
    Except BoRError Proof := do
  let r ← stages.foldlM (fun r fn => r.add_step fn) (BoRRun.init S0 C V)
  let (p, _) ← r.finalize
  pure p

/-- The exact mismatch message built by `verify_proof`. -/
def mismatchMsg (stored recomputed : String) : String :=
  "Verification failed!\nStored=" ++ stored ++ "\nRecomputed=" ++ recomputed

/-- `verify_proof(proof_path, S0, C, V, stages)` (bor/verify.py).  The file
system is modelled at the boundary as `Option StoredProof` (a missing file
raises the builtin `FileNotFoundError`).  On master mismatch it raises
`HashMismatchError`; on match it returns `True`, printing a warning (recorded
in the outcome) when the stored stage hashes are nonempty and differ from the
recomputed ones. -/
def verify_proof (file : Option StoredProof) (S0 : Int) (C : List (String × Int))
    (V : String) (stages : List PyFn) : Except BoRError VerifyOutcome :=
  match file with
  | none => .error (.FileNotFoundError "Proof file not found")
  | some pd =>
    match replay S0 C V stages with
    | .error e => .error e
    | .ok new_proof =>
      if new_proof.master ≠ pd.master then
        .error (.HashMismatchError (mismatchMsg pd.master new_proof.master))
      else
        .ok ⟨true, if pd.stage_hashes ≠ [] ∧ pd.stage_hashes ≠ new_proof.stage_hashes
                   then true else false⟩

/-- A row of the SQLite `proofs` table (bor/store.py). -/
structure SqlRow where
  id : Nat
  label : String
  master : String
  stage_hashes : List String
  deriving DecidableEq, Repr

/-- JSON-mode `ProofStore.load(label)`: the store directory is modelled as an
association list from label (file stem) to stored record.  An absent label
raises the builtin `FileNotFoundError`. -/
def ProofStore.load_json (files : List (String × StoredProof)) (label : String) :
    Except BoRError Proof :=
  match files.find? (fun p => p.1 == label) with
  | none => .error (.FileNotFoundError ("No proof named " ++ label))
  | some p => .ok ⟨p.2.stage_hashes, p.2.master⟩

/-- `SELECT master, stage_hashes FROM proofs WHERE label=? ORDER BY id DESC
LIMIT 1`: the matching row with the greatest id, if any. -/
def sqlSelectLatest (rows : List SqlRow) (label : String) : Option SqlRow :=
  (rows.filter (fun r => r.label == label)).foldl
    (fun best r => match best with
      | none => some r
      | some b => if b.id ≤ r.id then some r else some b) none

/-- SQLite-mode `ProofStore.load(label)`: an absent label (no matching row)
raises the builtin `FileNotFoundError`. -/
def ProofStore.load_sqlite (rows : List SqlRow) (label : String) :
    Except BoRError Proof :=
  match sqlSelectLatest rows label with
  | none => .error (.FileNotFoundError ("No proof named " ++ label))
  | some row => .ok ⟨row.stage_hashes, row.master⟩

/-- Does a load result consist of raising the spec's `NotFoundError`? -/
def raisesNotFound (r : Except BoRError Proof) : Bool :=
  match r with
  | .error (.NotFoundError _) => true
  | _ => false

/-- The test scenario's `add` function: `x + C.get("offset", 0)`. -/
def addFn : PyFn := .callable "add" (fun x C _ => .ok (x + cfgGet C "offset" 0))

/-- The test scenario's `square` function: `x * x`. -/
def squareFn : PyFn := .callable "square" (fun x _ _ => .ok (x * x))

/-- A step function whose invocation raises (spec Scenario C). -/
def failFn : PyFn := .callable "boom" (fun _ _ _ => .error "division by zero")

/-- The test scenario's config. -/
def scenCfg : List (String × Int) := [("offset", 2)]

/-- The scenario run `BoRRun(S0=3, C=scenCfg, V="v1.0")` after both steps. -/
def scenRun : BoRRun :=
  (((BoRRun.init 3 scenCfg "v1.0").add_step addFn).bind
    (fun r => r.add_step squareFn)).toOption.getD (BoRRun.init 3 scenCfg "v1.0")

/-- The scenario's finalized proof. -/
def scenProof : Proof :=
  match scenRun.finalize with
  | .ok (p, _) => p
  | .error _ => ⟨[], ""⟩

/-- The scenario run after `finalize` has cached its proof. -/
def scenRunFin : BoRRun :=
  match scenRun.finalize with
  | .ok (_, r) => r
  | .error _ => scenRun

/-- The proof value `finalize` constructs from a run's recorded steps. -/
def proofOf (r : BoRRun) : Proof :=
  ⟨r.steps.map (fun s => s.fingerprint.getD ""),
   content_hash (String.join (r.steps.map (fun s => s.fingerprint.getD "")))⟩

/-- The scenario run after its first step only. -/
def scenRun1 : BoRRun :=
  ((BoRRun.init 3 scenCfg "v1.0").add_step addFn).toOption.getD
    (BoRRun.init 3 scenCfg "v1.0")

/-- Decidable equality of `Except` results, defined computationally so that
concrete claims about run outcomes can be settled by evaluation. -/
def exceptDecEq {ε α : Type} [DecidableEq ε] [DecidableEq α] :
    (a b : Except ε α) → Decidable (a = b)
  | .ok a, .ok b =>
    if h : a = b then .isTrue (by rw [h]) else .isFalse (by simp [h])
  | .ok _, .error _ => .isFalse (by simp)
  | .error _, .ok _ => .isFalse (by simp)
  | .error a, .error b =>
    if h : a = b then .isTrue (by rw [h]) else .isFalse (by simp [h])

instance {ε α : Type} [DecidableEq ε] [DecidableEq α] : DecidableEq (Except ε α) :=
  exceptDecEq

set_option maxRecDepth 8000

/-- A digest prefixed by `n` tag characters and a separator determines `n`
and the payload: the separator is not the tag character. -/
theorem replicate_sep_inj {n1 n2 : Nat} {t1 t2 : List Char}
    (h : List.replicate n1 'L' ++ '#' :: t1 = List.replicate n2 'L' ++ '#' :: t2) :
    n1 = n2 ∧ t1 = t2 := by
  induction n1 generalizing n2 with
  | zero =>
    cases n2 with
    | zero => simpa using h
    | succ m =>
      rw [List.replicate_succ] at h
      simp only [List.replicate_zero, List.nil_append, List.cons_append,
        List.cons.injEq] at h
      exact absurd h.1 (by decide)
  | succ k ih =>
    cases n2 with
    | zero =>
      rw [List.replicate_succ] at h
      simp only [List.replicate_zero, List.nil_append, List.cons_append,
        List.cons.injEq] at h
      exact absurd h.1 (by decide)
    | succ m =>
      rw [List.replicate_succ, List.replicate_succ] at h
      simp only [List.cons_append, List.cons.injEq, true_and] at h
      obtain ⟨hn, ht⟩ := ih h
      exact ⟨by omega, ht⟩

/-- Character-level shape of a digest. -/
theorem content_hash_data (s : String) :
    (content_hash s).data = List.replicate s.data.length 'L' ++ '#' :: s.data := rfl

/-- The digest is collision-free (the spec's negligible-collision
idealisation, exact in this model). -/
theorem content_hash_inj {s1 s2 : String} (h : content_hash s1 = content_hash s2) :
    s1 = s2 := by
  have hd := congrArg String.data h
  rw [content_hash_data, content_hash_data] at hd
  exact String.ext (replicate_sep_inj hd).2

/-- A digest is a determined prefix of any character stream it starts:
concatenating digests is unambiguous. -/
theorem content_hash_append_inj {s1 s2 : String} {a b : List Char}
    (h : (content_hash s1).data ++ a = (content_hash s2).data ++ b) :
    s1 = s2 ∧ a = b := by
  rw [content_hash_data, content_hash_data] at h
  simp only [List.append_assoc, List.cons_append] at h
  obtain ⟨hn, ht⟩ := replicate_sep_inj h
  obtain ⟨hd, hab⟩ := List.append_inj ht hn
  exact ⟨String.ext hd, hab⟩

/-- Characters of a left fold of string appends. -/
theorem foldl_append_data (L : List String) (acc : String) :
    (L.foldl (fun r s => r ++ s) acc).data = acc.data ++ (L.map String.data).flatten := by
  induction L generalizing acc with
  | nil => simp
  | cons x xs ih => simp [ih, String.data_append]

/-- Characters of `String.join`. -/
theorem join_data (L : List String) :
    (String.join L).data = (L.map String.data).flatten := by
  simp [String.join, foldl_append_data]

/-- Joining digests in order is injective: the in-order concatenation of
fingerprints determines the fingerprint sequence. -/
theorem join_content_hash_inj : ∀ M1 M2 : List String,
    String.join (M1.map content_hash) = String.join (M2.map content_hash) → M1 = M2 := by
  intro M1
  induction M1 with
  | nil =>
    intro M2 h
    cases M2 with
    | nil => rfl
    | cons m rest =>
      have hd := congrArg String.data h
      rw [join_data, join_data] at hd
      simp [content_hash_data] at hd
  | cons m1 r1 ih =>
    intro M2 h
    cases M2 with
    | nil =>
      have hd := congrArg String.data h
      rw [join_data, join_data] at hd
      simp [content_hash_data] at hd
    | cons m2 r2 =>
      have hd := congrArg String.data h
      rw [join_data, join_data] at hd
      simp only [List.map_cons, List.flatten_cons] at hd
      obtain ⟨rfl, htl⟩ := content_hash_append_inj hd
      have hj : String.join (r1.map content_hash) = String.join (r2.map content_hash) :=
        String.ext (by rw [join_data, join_data]; exact htl)
      rw [ih r2 hj]

/-- A list all of whose elements are digests is the digest image of a list. -/
theorem exists_preimage_of_all_hash {l : List String}
    (h : ∀ x ∈ l, ∃ s, x = content_hash s) : ∃ M : List String, l = M.map content_hash := by
  induction l with
  | nil => exact ⟨[], rfl⟩
  | cons x xs ih =>
    obtain ⟨s, hs⟩ := h x (by simp)
    obtain ⟨M, hM⟩ := ih (fun y hy => h y (by simp [hy]))
    exact ⟨s :: M, by simp [hs, hM]⟩

/-- Unfolding of `finalize` as a single conditional. -/
theorem finalize_spec (r : BoRRun) :
    r.finalize =
      if r.steps.isEmpty then .error (.DeterminismError "No steps added to BoRRun.")
      else .ok (proofOf r, { r with proof := some (proofOf r) }) := rfl

/-- Unfolding of `add_step` on a callable argument. -/
theorem add_step_callable_spec (r : BoRRun) (name : String)
    (f : Int → List (String × Int) → String → Except String Int) :
    r.add_step (.callable name f) =
      match f r.prev_state_of r.config r.code_version with
      | .error e =>
        .error (.DeterminismError ("Function " ++ name ++ " failed deterministically: " ++ e))
      | .ok out =>
        .ok { r with
                steps := r.steps ++
                  [BoRStep.compute_fingerprint ⟨name, r.prev_state_of, r.config, r.code_version, none⟩],
                _final_state := some out } := rfl

/-- Unfolding of `verify_proof` when the replay succeeds. -/
theorem verify_proof_replay_ok_spec (pd : StoredProof) (S0 : Int)
    (C : List (String × Int)) (V : String) (stages : List PyFn) (np : Proof)
    (hr : replay S0 C V stages = .ok np) :
    verify_proof (some pd) S0 C V stages =
      if np.master ≠ pd.master then
        .error (.HashMismatchError (mismatchMsg pd.master np.master))
      else
        .ok ⟨true, if pd.stage_hashes ≠ [] ∧ pd.stage_hashes ≠ np.stage_hashes
                   then true else false⟩ := by
  unfold verify_proof
  rw [hr]

/-- Unfolding of `verify_proof` when the replay itself fails. -/
theorem verify_proof_replay_err_spec (pd : StoredProof) (S0 : Int)
    (C : List (String × Int)) (V : String) (stages : List PyFn) (e : BoRError)
    (hr : replay S0 C V stages = .error e) :
    verify_proof (some pd) S0 C V stages = .error e := by
  unfold verify_proof
  rw [hr]

/-- Re-running `finalize` on the run a successful `finalize` returned yields
the very same proof and run: the cached result is a pure function of the
recorded step fingerprints. -/
theorem finalize_ok_again {r : BoRRun} {p : Proof} {r' : BoRRun}
    (h : r.finalize = .ok (p, r')) : r'.finalize = .ok (p, r') := by
  rw [finalize_spec] at h
  by_cases hs : r.steps.isEmpty
  · rw [if_pos hs] at h; cases h
  · rw [if_neg hs] at h
    injection h with h
    injection h with hp hr
    subst hp; subst hr
    rw [finalize_spec]
    have hpr : proofOf { r with proof := some (proofOf r) } = proofOf r := rfl
    simp only [hpr]
    rw [if_neg hs]

/-- Overwriting a character of a list at a position where it differs changes
the list. -/
theorem set_ne_of_get_ne : ∀ (l : List Char) (i : Nat) (c : Char) (hi : i < l.length),
    c ≠ l.get ⟨i, hi⟩ → l.set i c ≠ l := by
  intro l
  induction l with
  | nil => intro i c hi; simp at hi
  | cons x xs ih =>
    intro i c hi hc
    cases i with
    | zero =>
      simp only [List.set]
      intro h
      injection h with h1 _
      exact hc (by simpa using h1)
    | succ j =>
      simp only [List.set]
      intro h
      injection h with _ h2
      exact ih j c (by simpa using hi) (by simpa using hc) h2

/-- Claim C1: `verify_proof` raises `HashMismatchError` whenever the
recomputed master differs from the stored one, never returns `False`, and
when the masters agree it returns `True` even if the stored stage hashes
differ from the recomputed ones — that anomaly only produces a warning. -/
theorem verify_proof_mismatch_policy :
    (∀ (file : Option StoredProof) (S0 : Int) (C : List (String × Int)) (V : String)
       (stages : List PyFn) (b w : Bool),
      verify_proof file S0 C V stages = .ok ⟨b, w⟩ → b = true) ∧
    (∀ (pd : StoredProof) (S0 : Int) (C : List (String × Int)) (V : String)
       (stages : List PyFn) (np : Proof), replay S0 C V stages = .ok np →
      (np.master ≠ pd.master →
        verify_proof (some pd) S0 C V stages =
          .error (.HashMismatchError (mismatchMsg pd.master np.master))) ∧
      (np.master = pd.master → pd.stage_hashes ≠ [] → pd.stage_hashes ≠ np.stage_hashes →
        verify_proof (some pd) S0 C V stages = .ok ⟨true, true⟩)) := by
  constructor
  · intro file S0 C V stages b w h
    match file with
    | none => cases h
    | some pd =>
      match hr : replay S0 C V stages with
      | .error e =>
        rw [verify_proof_replay_err_spec pd S0 C V stages e hr] at h
        cases h
      | .ok np =>
        rw [verify_proof_replay_ok_spec pd S0 C V stages np hr] at h
        split at h
        · cases h
        · injection h with h
          have hb := congrArg VerifyOutcome.result h
          simpa using hb.symm
  · intro pd S0 C V stages np hr
    constructor
    · intro hm
      rw [verify_proof_replay_ok_spec pd S0 C V stages np hr, if_pos hm]
    · intro hm hne hdiff
      rw [verify_proof_replay_ok_spec pd S0 C V stages np hr,
        if_neg (by simp [hm]), if_pos ⟨hne, hdiff⟩]

/-- Witness for C1 at the test scenario: a matching proof returns `True`
(no `False` result); a doctored master raises `HashMismatchError`; matching
master with divergent stored stage hashes still returns `True`, with the
warning flag set. -/
theorem verify_proof_mismatch_policy_witness :
    (true = true) ∧
    (verify_proof (some ⟨"doctored", scenProof.stage_hashes⟩) 3 scenCfg "v1.0"
        [addFn, squareFn] =
      .error (.HashMismatchError (mismatchMsg "doctored" scenProof.master))) ∧
    (verify_proof (some ⟨scenProof.master, ["stale"]⟩) 3 scenCfg "v1.0"
        [addFn, squareFn] = .ok ⟨true, true⟩) :=
  ⟨verify_proof_mismatch_policy.1 (some ⟨scenProof.master, scenProof.stage_hashes⟩)
      3 scenCfg "v1.0" [addFn, squareFn] true false (by decide),
   (verify_proof_mismatch_policy.2 ⟨"doctored", scenProof.stage_hashes⟩
      3 scenCfg "v1.0" [addFn, squareFn] scenProof (by decide)).1 (by decide),
   (verify_proof_mismatch_policy.2 ⟨scenProof.master, ["stale"]⟩
      3 scenCfg "v1.0" [addFn, squareFn] scenProof (by decide)).2 rfl
      (by decide) (by decide)⟩

/-- Claim C2: the master produced by `finalize` is the hash of the in-order
concatenation of the stage hashes, and two distinct fingerprint sequences
that are permutations of each other (length at least two, not all elements
equal) yield different masters. -/
theorem finalize_master_hash_and_order_sensitivity :
    (∀ (r : BoRRun) (p : Proof) (r' : BoRRun), r.finalize = .ok (p, r') →
      p.master = content_hash (String.join p.stage_hashes)) ∧
    (∀ l1 l2 : List String,
      (∀ x ∈ l1, ∃ s, x = content_hash s) → (∀ x ∈ l2, ∃ s, x = content_hash s) →
      l1.Perm l2 → l1 ≠ l2 → 2 ≤ l1.length → ¬ (∀ x ∈ l1, ∀ y ∈ l1, x = y) →
      content_hash (String.join l1) ≠ content_hash (String.join l2)) := by
  constructor
  · intro r p r' h
    rw [finalize_spec] at h
    by_cases hs : r.steps.isEmpty
    · rw [if_pos hs] at h; cases h
    · rw [if_neg hs] at h
      injection h with h
      injection h with hp hr
      subst hp
      rfl
  · intro l1 l2 h1 h2 _ hne _ _ heq
    obtain ⟨M1, rfl⟩ := exists_preimage_of_all_hash h1
    obtain ⟨M2, rfl⟩ := exists_preimage_of_all_hash h2
    exact hne (by rw [join_content_hash_inj M1 M2 (content_hash_inj heq)])

/-- Witness for C2: the scenario master is the hash of its joined stage
hashes, and swapping two distinct fingerprints changes the master. -/
theorem finalize_master_hash_and_order_sensitivity_witness :
    scenProof.master = content_hash (String.join scenProof.stage_hashes) ∧
    content_hash (String.join [content_hash "a", content_hash "b"]) ≠
      content_hash (String.join [content_hash "b", content_hash "a"]) :=
  ⟨finalize_master_hash_and_order_sensitivity.1 scenRun scenProof scenRunFin rfl,
   finalize_master_hash_and_order_sensitivity.2
     [content_hash "a", content_hash "b"] [content_hash "b", content_hash "a"]
     (by intro x hx
         simp only [List.mem_cons, List.not_mem_nil, or_false] at hx
         rcases hx with h | h
         exacts [⟨"a", h⟩, ⟨"b", h⟩])
     (by intro x hx
         simp only [List.mem_cons, List.not_mem_nil, or_false] at hx
         rcases hx with h | h
         exacts [⟨"b", h⟩, ⟨"a", h⟩])
     (List.Perm.swap (content_hash "b") (content_hash "a") [])
     (by decide) (by decide) (by decide)⟩

/-- Claim C3: once a run has been finalized, `verify()` always returns
`True` — its `HashMismatchError` branch is unreachable because `verify`
first calls `finalize`, which reassigns `self.proof`, so the recomputed
master is compared against itself; an unfinalized run instead raises
`DeterminismError`. -/
theorem verify_after_finalize_always_true :
    (∀ (r : BoRRun) (p : Proof) (r' : BoRRun), r.finalize = .ok (p, r') →
      r'.verify = .ok true) ∧
    (∀ r : BoRRun, r.proof = none →
      r.verify = .error (.DeterminismError "Run must be finalized before verification.")) := by
  constructor
  · intro r p r' h
    have h2 := finalize_ok_again h
    rw [finalize_spec] at h
    by_cases hs : r.steps.isEmpty
    · rw [if_pos hs] at h; cases h
    · rw [if_neg hs] at h
      injection h with h
      injection h with hp hr
      subst hp; subst hr
      unfold BoRRun.verify
      rw [h2]
      simp
  · intro r h
    unfold BoRRun.verify
    rw [h]

/-- Witness for C3: the finalized scenario run verifies to `True`; a fresh
run raises `DeterminismError`. -/
theorem verify_after_finalize_always_true_witness :
    scenRunFin.verify = .ok true ∧
    (BoRRun.init 3 scenCfg "v1.0").verify =
      .error (.DeterminismError "Run must be finalized before verification.") :=
  ⟨verify_after_finalize_always_true.1 scenRun scenProof scenRunFin rfl,
   verify_after_finalize_always_true.2 (BoRRun.init 3 scenCfg "v1.0") rfl⟩

/-- Claim C4: altering any single character of the stored master (at a
position where the new character differs) makes replaying the identical
initial state, config, version and step sequence raise `HashMismatchError`. -/
theorem verify_proof_detects_master_alteration :
    ∀ (S0 : Int) (C : List (String × Int)) (V : String) (stages : List PyFn)
      (np : Proof) (i : Nat) (c : Char) (hi : i < np.master.data.length),
      replay S0 C V stages = .ok np →
      c ≠ np.master.data.get ⟨i, hi⟩ →
      verify_proof (some ⟨⟨np.master.data.set i c⟩, np.stage_hashes⟩) S0 C V stages =
        .error (.HashMismatchError
          (mismatchMsg (String.mk (np.master.data.set i c)) np.master)) := by
  intro S0 C V stages np i c hi hr hc
  have hne : np.master ≠ (⟨np.master.data.set i c⟩ : String) := by
    intro h
    exact set_ne_of_get_ne np.master.data i c hi hc (congrArg String.data h).symm
  rw [verify_proof_replay_ok_spec _ S0 C V stages np hr, if_pos hne]

/-- Witness for C4 at the test scenario: flipping the last character of the
stored master (position 496, the scenario master has 497 characters) to an
`x` makes `verify_proof` raise `HashMismatchError`. -/
theorem verify_proof_detects_master_alteration_witness :
    verify_proof (some ⟨⟨scenProof.master.data.set 496 'x'⟩, scenProof.stage_hashes⟩)
        3 scenCfg "v1.0" [addFn, squareFn] =
      .error (.HashMismatchError
        (mismatchMsg (String.mk (scenProof.master.data.set 496 'x')) scenProof.master)) :=
  verify_proof_detects_master_alteration 3 scenCfg "v1.0" [addFn, squareFn]
    scenProof 496 'x' (by decide) (by decide) (by decide)

/-- Claim C5: `finalize` is idempotent — re-running it on the run returned
by a successful `finalize`, with no steps added in between, yields the
identical `Proof` (and identical run). -/
theorem finalize_idempotent :
    ∀ (r : BoRRun) (p : Proof) (r' : BoRRun),
      r.finalize = .ok (p, r') → r'.finalize = .ok (p, r') :=
  fun _ _ _ h => finalize_ok_again h

/-- Witness for C5: finalizing the already-finalized scenario run returns
the byte-identical proof again. -/
theorem finalize_idempotent_witness :
    scenRunFin.finalize = .ok (scenProof, scenRunFin) :=
  finalize_idempotent scenRun scenProof scenRunFin rfl

/-- Claim C6: `add_step` raises `DeterminismError` on a non-callable, wraps
a raising step function's exception as `DeterminismError`, and on success
appends exactly one step recording the pre-invocation state as its input,
updates the final state to the function's output, and returns the run with
all other fields unchanged. -/
theorem add_step_contract :
    (∀ (r : BoRRun) (d : String),
      r.add_step (.notCallable d) = .error (.DeterminismError "Step must be a callable.")) ∧
    (∀ (r : BoRRun) (name : String) f (e : String),
      f r.prev_state_of r.config r.code_version = .error e →
      r.add_step (.callable name f) =
        .error (.DeterminismError ("Function " ++ name ++ " failed deterministically: " ++ e))) ∧
    (∀ (r : BoRRun) (name : String) f (out : Int) (r2 : BoRRun),
      f r.prev_state_of r.config r.code_version = .ok out →
      r.add_step (.callable name f) = .ok r2 →
      (∃ st : BoRStep, r2.steps = r.steps ++ [st] ∧
        st.input_state = r.prev_state_of ∧ st.fn_name = name) ∧
      r2._final_state = some out ∧
      r2.initial_state = r.initial_state ∧ r2.config = r.config ∧
      r2.code_version = r.code_version ∧ r2.proof = r.proof) := by
  refine ⟨fun r d => rfl, fun r name f e h => ?_, fun r name f out r2 h h2 => ?_⟩
  · rw [add_step_callable_spec, h]
  · rw [add_step_callable_spec, h] at h2
    injection h2 with h2
    subst h2
    exact ⟨⟨_, rfl, rfl, rfl⟩, rfl, rfl, rfl, rfl, rfl⟩

/-- Witness for C6: a non-callable and a raising function are rejected with
`DeterminismError`; the scenario's first `add` step appends one step with
input 3 and sets the final state to 5 while preserving the other fields. -/
theorem add_step_contract_witness :
    ((BoRRun.init 3 scenCfg "v1.0").add_step (.notCallable "None") =
      .error (.DeterminismError "Step must be a callable.")) ∧
    ((BoRRun.init 3 scenCfg "v1.0").add_step
        (.callable "boom" (fun _ _ _ => .error "division by zero")) =
      .error (.DeterminismError
        "Function boom failed deterministically: division by zero")) ∧
    ((∃ st : BoRStep, scenRun1.steps = (BoRRun.init 3 scenCfg "v1.0").steps ++ [st] ∧
        st.input_state = (BoRRun.init 3 scenCfg "v1.0").prev_state_of ∧
        st.fn_name = "add") ∧
      scenRun1._final_state = some 5 ∧
      scenRun1.initial_state = (BoRRun.init 3 scenCfg "v1.0").initial_state ∧
      scenRun1.config = (BoRRun.init 3 scenCfg "v1.0").config ∧
      scenRun1.code_version = (BoRRun.init 3 scenCfg "v1.0").code_version ∧
      scenRun1.proof = (BoRRun.init 3 scenCfg "v1.0").proof) :=
  ⟨add_step_contract.1 (BoRRun.init 3 scenCfg "v1.0") "None",
   add_step_contract.2.1 (BoRRun.init 3 scenCfg "v1.0") "boom"
     (fun _ _ _ => .error "division by zero") "division by zero" rfl,
   add_step_contract.2.2 (BoRRun.init 3 scenCfg "v1.0") "add"
     (fun x C _ => .ok (x + cfgGet C "offset" 0)) 5 scenRun1 rfl rfl⟩

/-- Claim C7: `finalize()` on a run with zero recorded steps raises
`DeterminismError`. -/
theorem finalize_empty_run_rejected :
    ∀ r : BoRRun, r.steps = [] →
      r.finalize = .error (.DeterminismError "No steps added to BoRRun.") := by
  intro r h
  rw [finalize_spec, h]
  rfl

/-- Witness for C7: a freshly initialised run cannot be finalized. -/
theorem finalize_empty_run_rejected_witness :
    (BoRRun.init 3 scenCfg "v1.0").finalize =
      .error (.DeterminismError "No steps added to BoRRun.") :=
  finalize_empty_run_rejected (BoRRun.init 3 scenCfg "v1.0") rfl

/-- Claim C8: in the concrete run with S0=3, config offset 2, steps add then
square: step one records input 3 (output 5), step two records input 5, the
final state is 25, exactly two fingerprints are produced, the master equals
the hash of their concatenation fp1 ++ fp2, and replaying the identical
S0/config/version/steps reproduces the identical proof. -/
theorem scenario_add_square_values :
    scenRun.steps.map (fun s => s.input_state) = [3, 5] ∧
    scenRun._final_state = some 25 ∧
    scenProof.stage_hashes =
      [content_hash (canonicalPayload "add" 3 scenCfg "v1.0"),
       content_hash (canonicalPayload "square" 5 scenCfg "v1.0")] ∧
    scenProof.master =
      content_hash (content_hash (canonicalPayload "add" 3 scenCfg "v1.0") ++
        content_hash (canonicalPayload "square" 5 scenCfg "v1.0")) ∧
    replay 3 scenCfg "v1.0" [addFn, squareFn] = .ok scenProof :=
  ⟨by decide, by decide, by decide, by decide, by decide⟩

/-- Claim C9: fingerprinting is deterministic — two steps with identical
payloads (function name, input state, config, code version) always compute
identical fingerprints, whatever the prior value of the fingerprint field. -/
theorem compute_fingerprint_deterministic :
    ∀ s1 s2 : BoRStep, s1.fn_name = s2.fn_name → s1.input_state = s2.input_state →
      s1.config = s2.config → s1.code_version = s2.code_version →
      s1.compute_fingerprint.fingerprint = s2.compute_fingerprint.fingerprint := by
  intro s1 s2 h1 h2 h3 h4
  unfold BoRStep.compute_fingerprint
  rw [h1, h2, h3, h4]

/-- Witness for C9: the same payload with different stale fingerprint fields
yields the same fingerprint. -/
theorem compute_fingerprint_deterministic_witness :
    (BoRStep.mk "add" 3 scenCfg "v1.0" none).compute_fingerprint.fingerprint =
      (BoRStep.mk "add" 3 scenCfg "v1.0" (some "stale")).compute_fingerprint.fingerprint :=
  compute_fingerprint_deterministic
    (BoRStep.mk "add" 3 scenCfg "v1.0" none)
    (BoRStep.mk "add" 3 scenCfg "v1.0" (some "stale")) rfl rfl rfl rfl

/-- Claim C10 counterexample: loading an absent label raises the host
builtin `FileNotFoundError`, not the spec's `NotFoundError`, in both JSON
and SQLite modes — checked on the empty store with label "missing". -/
theorem load_absent_label_no_NotFoundError :
    ProofStore.load_json [] "missing" =
      .error (.FileNotFoundError "No proof named missing") ∧
    ProofStore.load_sqlite [] "missing" =
      .error (.FileNotFoundError "No proof named missing") ∧
    raisesNotFound (ProofStore.load_json [] "missing") = false ∧
    raisesNotFound (ProofStore.load_sqlite [] "missing") = false := by
  refine ⟨rfl, rfl, by decide, by decide⟩

/-- Claim C10 as amended: for every label absent from the proof store,
`load(label)` fails with the builtin `FileNotFoundError` (not the spec's
`NotFoundError`), in both JSON and SQLite modes. -/
theorem load_absent_label_raises_FileNotFoundError :
    ∀ (files : List (String × StoredProof)) (rows : List SqlRow) (label : String),
      (∀ p ∈ files, p.1 ≠ label) → (∀ r ∈ rows, r.label ≠ label) →
      ProofStore.load_json files label =
        .error (.FileNotFoundError ("No proof named " ++ label)) ∧
      ProofStore.load_sqlite rows label =
        .error (.FileNotFoundError ("No proof named " ++ label)) := by
  intro files rows label hf hr
  constructor
  · unfold ProofStore.load_json
    have hnone : files.find? (fun p => p.1 == label) = none := by
      rw [List.find?_eq_none]
      intro x hx
      simpa using hf x hx
    rw [hnone]
  · unfold ProofStore.load_sqlite sqlSelectLatest
    have hnil : rows.filter (fun r => r.label == label) = [] := by
      rw [List.filter_eq_nil_iff]
      intro x hx
      simpa using hr x hx
    rw [hnil]
    rfl

/-- Witness for amended C10: on a store holding only label "good", loading
label "missing" fails with `FileNotFoundError` in both modes. -/
theorem load_absent_label_raises_FileNotFoundError_witness :
    ProofStore.load_json [("good", ⟨"m", ["h"]⟩)] "missing" =
      .error (.FileNotFoundError "No proof named missing") ∧
    ProofStore.load_sqlite [⟨1, "good", "m", ["h"]⟩] "missing" =
      .error (.FileNotFoundError "No proof named missing") :=
  load_absent_label_raises_FileNotFoundError
    [("good", ⟨"m", ["h"]⟩)] [⟨1, "good", "m", ["h"]⟩] "missing"
    (by decide) (by decide)
